import Mathlib

/-!
Verification of `graphene_django_filter.connection_field` against its
natural-language specification.

The development shallowly embeds `AdvancedDjangoFilterConnectionField`:

* `resolveQueryset` embeds the classmethod
  `AdvancedDjangoFilterConnectionField.resolve_queryset`.  Django querysets
  are embedded as a free term algebra (`QuerySet`) recording the chain of
  queryset operations (`order_by`, `distinct`, annotation methods, the
  filterset's filtering), so theorems can speak about exactly which
  operations the code applies and in which order.
* `to_snake_case` embeds graphene's `str_converters.to_snake_case`
  (two regex substitution passes followed by lowercasing), which the
  source calls on every `orderBy` entry.
* `initConnField`, `providedFiltersetClassOf` and `filterInputTypePrefixOf`
  embed `__init__`, the `provided_filterset_class` property and the
  `filter_input_type_prefix` property.  Python truthiness of `None`,
  empty strings and empty lists is embedded explicitly.
* The helper modules of the library that are not part of the sources
  under verification (`AdvancedFilterSet`'s form, and
  `input_data_factories.tree_input_type_to_data`) are modelled from the
  specification, as documented on each such definition.
-/

namespace GrapheneDjangoFilter

/-- ASCII range test for the regex character class [A-Z]. -/
def isUpperAscii (c : Char) : Bool := 'A' ≤ c && c ≤ 'Z'

/-- ASCII range test for the regex character class [a-z]. -/
def isLowerAscii (c : Char) : Bool := 'a' ≤ c && c ≤ 'z'

/-- ASCII range test for the regex character class [a-z0-9]. -/
def isLowerOrDigitAscii (c : Char) : Bool := isLowerAscii c || ('0' ≤ c && c ≤ '9')

/-- Whether a character list starts with an ASCII lowercase letter. -/
def headIsLowerAscii : List Char → Bool
  | [] => false
  | c :: _ => isLowerAscii c

/-- First substitution pass of graphene's `to_snake_case`: the leftmost,
non-overlapping rewriting of an arbitrary character followed by an upper
case letter and a maximal nonempty run of lower case letters, inserting an
underscore after the first character.  The scan resumes after each match,
exactly as the regex substitution does.  `fuel` only bounds the recursion;
it is instantiated with the length of the input, which the scan never
exceeds. -/
def sub1Go : Nat → List Char → List Char
  | 0, l => l
  | fuel + 1, l =>
    match l with
    | [] => []
    | [c] => [c]
    | c :: d :: rest =>
      if isUpperAscii d && headIsLowerAscii rest then
        c :: '_' :: d :: (rest.takeWhile isLowerAscii ++ sub1Go fuel (rest.dropWhile isLowerAscii))
      else
        c :: sub1Go fuel (d :: rest)

/-- Second substitution pass of graphene's `to_snake_case`: an underscore is
inserted between a lower case letter or digit and an upper case letter; the
scan resumes after each matched pair. -/
def sub2 : List Char → List Char
  | [] => []
  | [c] => [c]
  | c :: d :: rest =>
    if isLowerOrDigitAscii c && isUpperAscii d then
      c :: '_' :: d :: sub2 rest
    else
      c :: sub2 (d :: rest)

/-- Embedding of `graphene.utils.str_converters.to_snake_case`: two
substitution passes followed by lowercasing every character. -/
def to_snake_case (s : String) : String :=
  String.mk ((sub2 (sub1Go s.toList.length s.toList)).map Char.toLower)

/-- Embedding of the Python expression `s.lstrip("-")`: remove every leading
dash character. -/
def lstripDash (s : String) : String :=
  String.mk (s.toList.dropWhile (fun c => c = '-'))

/-- Scalar values carried at the leaves of a submitted GraphQL filter input
tree (the values handed to individual field lookups). -/
inductive Value where
  | str (s : String)
  | int (n : Int)
  | bool (b : Bool)
  deriving DecidableEq, Repr

/-- A submitted filter input tree: every node is a mapping from keys (field
names, relation names, lookup names, or the logical keys and, or, not) to
either a further node or a leaf value.  This is the shape of the `filter`
argument the library contributes to the schema. -/
inductive TreeInput where
  | leaf (v : Value)
  | node (entries : List (String × TreeInput))

/-- Qualification of a child key by the relation path accumulated so far,
using the ORM lookup separator. -/
def qualifyKey (p k : String) : String := if p = "" then k else p ++ "__" ++ k

mutual

/-- Modelled from the spec: the recursive flattening performed by
`input_data_factories.tree_input_type_to_data`, whose module is not among
the sources under verification.  Per the specification it must
"recursively flatten a submitted input tree back into a flat lookup dict"
and "recursively merge child dict nodes, qualifying keys by relation
path". -/
def flattenTree (p : String) : TreeInput → List (String × Value)
  | .leaf v => [(p, v)]
  | .node es => flattenEntries p es

/-- Modelled from the spec: flattening of the entries of one tree node; each
child is flattened under its key qualified by the accumulated relation path
and the resulting flat dictionaries are merged in order. -/
def flattenEntries (p : String) : List (String × TreeInput) → List (String × Value)
  | [] => []
  | (k, t) :: rest => flattenTree (qualifyKey p k) t ++ flattenEntries p rest

end

/-- A Django queryset, embedded as a free term recording which queryset
operations the code under verification applied and in which order. -/
inductive QuerySet where
  | base (name : String)
  | annotate (qs : QuerySet) (field : String)
  | orderBy (qs : QuerySet) (fields : List String)
  | distinct (qs : QuerySet)
  | filtered (qs : QuerySet) (data : List (String × Value))
  deriving DecidableEq, Repr

/-- Modelled from the spec: the behaviour of an `AdvancedFilterSet` class
(whose module is not among the sources under verification) as used by
`resolve_queryset`: its form either validates the flat filter data or
reports errors with a JSON encoding, and its `qs` property applies the
filtering described by the data to the queryset it was constructed with. -/
structure FiltersetClass where
  formIsValid : List (String × Value) → Bool
  formErrorsAsJson : List (String × Value) → String
  filtersetQs : List (String × Value) → QuerySet → QuerySet

/-- Embedding of `tree_input_type_to_data(filterset_class, tree_input_type)`:
the submitted tree is flattened starting from the empty relation path.  The
filterset class argument mirrors the call shape in `resolve_queryset`. -/
def tree_input_type_to_data (_filterset_class : FiltersetClass) (t : TreeInput) :
    List (String × Value) :=
  flattenTree "" t

/-- The Django `ValidationError` raised by `resolve_queryset`, carrying the
JSON-encoded form errors as its message. -/
structure ValidationError where
  message : String
  deriving DecidableEq, Repr

/-- The `orderBy` entry of the resolver arguments: absent (or null), a single
string, or a list of strings, as in `args.get("orderBy", None)`. -/
inductive OrderArg where
  | absent
  | str (s : String)
  | list (l : List String)
  deriving DecidableEq, Repr

/-- The resolver arguments consulted by `resolve_queryset`: the `orderBy`
entry and the entry under `settings.FILTER_KEY` (absent when the request
omits the filter argument). -/
structure Args where
  orderBy : OrderArg
  filter : Option TreeInput

/-- Embedding of the annotation loop of `resolve_queryset`: for each ordering
entry, the leading dashes are stripped and, when the queryset class exposes a
method named `annotate_<field>` (the `methods` predicate embeds the
`getattr` probe), that method is applied to the queryset. -/
def applyAnnots (methods : String → Bool) : QuerySet → List String → QuerySet
  | qs, [] => qs
  | qs, f :: fs =>
    let fStripped := lstripDash f
    let qsNext :=
      if methods ("annotate_" ++ fStripped) then QuerySet.annotate qs fStripped else qs
    applyAnnots methods qsNext fs

/-- Embedding of `AdvancedDjangoFilterConnectionField.resolve_queryset`.
`baseQs` stands for the queryset returned by the superclass resolution.
Python truthiness of `order` is embedded by the case split: an absent entry,
an empty string and an empty list all skip the ordering block.  When `order`
is a string, `snake_order` stays a string in the source, so both the
annotation loop (`for order_arg in snake_order`) and the argument unpacking
(`qs.order_by(*snake_order)`) iterate over its characters; the embedding
converts it once to the list of its one-character strings. -/
def resolveQueryset (filterset_class : FiltersetClass) (methods : String → Bool)
    (baseQs : QuerySet) (args : Args) : Except ValidationError QuerySet :=
  let qs := baseQs
  let qsOrdered :=
    match args.orderBy with
    | OrderArg.absent => qs
    | OrderArg.str s =>
      if s.isEmpty then qs
      else
        let snake_order := (to_snake_case s).toList.map (fun c => String.mk [c])
        QuerySet.distinct (QuerySet.orderBy (applyAnnots methods qs snake_order) snake_order)
    | OrderArg.list l =>
      if l.isEmpty then qs
      else
        let snake_order := l.map to_snake_case
        QuerySet.distinct (QuerySet.orderBy (applyAnnots methods qs snake_order) snake_order)
  let filter_arg := args.filter.getD (TreeInput.node [])
  let data := tree_input_type_to_data filterset_class filter_arg
  if filterset_class.formIsValid data then
    Except.ok (filterset_class.filtersetQs data qsOrdered)
  else
    Except.error (ValidationError.mk (filterset_class.formErrorsAsJson data))

/-- Specification-side decomposition: the ordering stage of
`resolve_queryset` in isolation (the queryset as it stands when the
filterset is constructed).  `resolveQueryset` is stated to factor through
this function; it is not defined in terms of it. -/
def orderedQueryset (methods : String → Bool) (qs : QuerySet) : OrderArg → QuerySet
  | OrderArg.absent => qs
  | OrderArg.str s =>
    if s.isEmpty then qs
    else
      let snake_order := (to_snake_case s).toList.map (fun c => String.mk [c])
      QuerySet.distinct (QuerySet.orderBy (applyAnnots methods qs snake_order) snake_order)
  | OrderArg.list l =>
    if l.isEmpty then qs
    else
      let snake_order := l.map to_snake_case
      QuerySet.distinct (QuerySet.orderBy (applyAnnots methods qs snake_order) snake_order)

/-- Specification-side decomposition: the final stage of `resolve_queryset`,
which constructs the filterset over the given data and queryset and either
returns the filtered queryset or raises a validation error carrying the
JSON-encoded form errors. -/
def applyFilterset (filterset_class : FiltersetClass) (data : List (String × Value))
    (qs : QuerySet) : Except ValidationError QuerySet :=
  if filterset_class.formIsValid data then
    Except.ok (filterset_class.filtersetQs data qs)
  else
    Except.error (ValidationError.mk (filterset_class.formErrorsAsJson data))

/-- The flat filter data that `resolve_queryset` hands to the filterset for
the given arguments: the flattening of the submitted tree, with an empty
tree substituted when the filter argument is absent. -/
def filterDataOf (filterset_class : FiltersetClass) (args : Args) : List (String × Value) :=
  tree_input_type_to_data filterset_class (args.filter.getD (TreeInput.node []))

mutual

/-- Specification-side description of the leaves of a filter input tree:
each leaf value paired with the list of keys on the path from the root to
it. -/
def leafPaths : TreeInput → List (List String × Value)
  | .leaf v => [([], v)]
  | .node es => leafPathsEntries es

/-- Specification-side description of the leaves below the entries of one
tree node, each path extended with the entry key. -/
def leafPathsEntries : List (String × TreeInput) → List (List String × Value)
  | [] => []
  | (k, t) :: rest => (leafPaths t).map (fun pv => (k :: pv.1, pv.2)) ++ leafPathsEntries rest

end

/-- A relation path joined into a single qualified lookup key, starting from
an already accumulated path. -/
def joinPath (p : String) (ks : List String) : String := ks.foldl qualifyKey p

/-- Sort direction of one ordering entry. -/
inductive SortDir where
  | asc
  | desc
  deriving DecidableEq, Repr

/-- Modelled from the spec: how Django's `order_by` interprets one ordering
entry — a leading dash selects descending order on the remaining field name,
per the specification of the `orderBy` argument. -/
def interpretOrderField (s : String) : String × SortDir :=
  match s.toList with
  | '-' :: rest => (String.mk rest, SortDir.desc)
  | _ => (s, SortDir.asc)

/-- Modelled from the spec: the ordering a queryset term carries — the
interpretation of the field strings of its most recent `order_by` call,
which annotation, `distinct` and filtering preserve. -/
def orderingOf : QuerySet → Option (List (String × SortDir))
  | QuerySet.base _ => none
  | QuerySet.annotate qs _ => orderingOf qs
  | QuerySet.orderBy _ fields => some (fields.map interpretOrderField)
  | QuerySet.distinct qs => orderingOf qs
  | QuerySet.filtered qs _ => orderingOf qs

/-- The mutable attributes of a connection field instance that exist around
`resolve_queryset`: the caches written by the `filterset_class` and
`filtering_args` properties.  `resolve_queryset` is a classmethod and
receives everything it consults as arguments. -/
structure FieldState where
  filtersetClassCache : Option FiltersetClass
  filteringArgsCache : Option (List String)

/-- State-passing embedding of `resolve_queryset`: every statement of the
method body is threaded through the field state, so that the frame property
(no statement writes any surviving state) is a theorem about this
definition rather than an assumption. -/
def resolveQuerysetSt (st : FieldState) (filterset_class : FiltersetClass)
    (methods : String → Bool) (baseQs : QuerySet) (args : Args) :
    FieldState × Except ValidationError QuerySet :=
  let stepSuper : FieldState × QuerySet := (st, baseQs)
  let stepOrder : FieldState × QuerySet :=
    (stepSuper.1, orderedQueryset methods stepSuper.2 args.orderBy)
  let stepData : FieldState × List (String × Value) :=
    (stepOrder.1, tree_input_type_to_data filterset_class (args.filter.getD (TreeInput.node [])))
  if filterset_class.formIsValid stepData.2 then
    (stepData.1, Except.ok (filterset_class.filtersetQs stepData.2 stepOrder.2))
  else
    (stepData.1, Except.error (ValidationError.mk (filterset_class.formErrorsAsJson stepData.2)))

/-- A filterset class as a runtime value for the purposes of `__init__`: its
name and whether it is a subclass of `AdvancedFilterSet`. -/
structure FiltersetCls where
  name : String
  isAdvancedFilterSetSubclass : Bool
  deriving DecidableEq, Repr

/-- The Meta options of a node type consulted by the connection field. -/
structure NodeTypeMeta where
  filtersetClass : Option FiltersetCls
  deriving DecidableEq, Repr

/-- A Django object type used as the node type of the connection field. -/
structure NodeType where
  name : String
  meta : NodeTypeMeta
  deriving DecidableEq, Repr

/-- Embedding of the `provided_filterset_class` property:
`self._provided_filterset_class or self.node_type._meta.filterset_class`,
where `None` is the only falsy value a class-valued attribute can take. -/
def providedFiltersetClassOf (provided : Option FiltersetCls) (nodeType : NodeType) :
    Option FiltersetCls :=
  match provided with
  | some c => some c
  | none => nodeType.meta.filtersetClass

/-- A constructed `AdvancedDjangoFilterConnectionField`: the attributes set
by `__init__` that the properties under verification consult. -/
structure ConnField where
  nodeType : NodeType
  providedArg : Option FiltersetCls
  filterInputTypePrefixArg : Option String
  deriving DecidableEq, Repr

/-- The message of the assertion in `__init__`. -/
def advancedAssertMsg : String :=
  "Use the AdvancedFilterSet class with the AdvancedDjangoFilterConnectionField"

/-- Embedding of `AdvancedDjangoFilterConnectionField.__init__`: after the
superclass constructor stores the arguments, the assertion requires the
provided filterset class to be absent or an `AdvancedFilterSet` subclass;
a failed assertion aborts construction. -/
def initConnField (nodeType : NodeType) (filtersetClassArg : Option FiltersetCls)
    (filterInputTypePrefixArg : Option String) : Except String ConnField :=
  match providedFiltersetClassOf filtersetClassArg nodeType with
  | none => Except.ok ⟨nodeType, filtersetClassArg, filterInputTypePrefixArg⟩
  | some c =>
    if c.isAdvancedFilterSetSubclass then
      Except.ok ⟨nodeType, filtersetClassArg, filterInputTypePrefixArg⟩
    else
      Except.error advancedAssertMsg

/-- Whether an exceptional computation succeeded. -/
def exceptIsOk {ε α : Type} (e : Except ε α) : Bool :=
  match e with
  | Except.ok _ => true
  | Except.error _ => false

/-- The predicate of the `__init__` assertion, as a function of the provided
filterset class. -/
def assertionPasses : Option FiltersetCls → Bool
  | none => true
  | some c => c.isAdvancedFilterSetSubclass

/-- Python truthiness of an optional string attribute: `None` and the empty
string are falsy. -/
def truthyOptStr : Option String → Bool
  | none => false
  | some s => !s.isEmpty

/-- Embedding of the Python expression `name.replace('Type', '')`: every
leftmost, non-overlapping occurrence of the substring is removed, the scan
resuming after each removal. -/
def removeTypeOccurrences : List Char → List Char
  | 'T' :: 'y' :: 'p' :: 'e' :: rest => removeTypeOccurrences rest
  | c :: rest => c :: removeTypeOccurrences rest
  | [] => []

/-- String-level wrapper of `removeTypeOccurrences`. -/
def replaceTypeEmpty (s : String) : String :=
  String.mk (removeTypeOccurrences s.toList)

/-- Embedding of the `filter_input_type_prefix` property: the explicitly
supplied prefix when it is truthy, otherwise the node type name with the
substring `Type` removed, concatenated with the provided filterset class
name when one exists. -/
def filterInputTypePrefixOf (f : ConnField) : String :=
  if truthyOptStr f.filterInputTypePrefixArg then f.filterInputTypePrefixArg.getD ""
  else
    let nodeTypeName := replaceTypeEmpty f.nodeType.name
    match providedFiltersetClassOf f.providedArg f.nodeType with
    | some c => nodeTypeName ++ c.name
    | none => nodeTypeName

/-- A concrete filterset class whose form always validates and whose `qs`
property records the filtering as a `filtered` node, used to evaluate the
resolver on concrete inputs. -/
def passthroughFiltersetClass : FiltersetClass where
  formIsValid := fun _ => true
  formErrorsAsJson := fun _ => "\x7b\x7d"
  filtersetQs := fun data qs => QuerySet.filtered qs data

/-- A concrete queryset class method table without annotation methods. -/
def noMethods : String → Bool := fun _ => false

/-- A concrete base queryset. -/
def sampleBaseQs : QuerySet := QuerySet.base "tasks"

theorem resolveQueryset_eq_pipeline (filterset_class : FiltersetClass)
    (methods : String → Bool) (baseQs : QuerySet) (args : Args) :
    resolveQueryset filterset_class methods baseQs args =
      applyFilterset filterset_class (filterDataOf filterset_class args)
        (orderedQueryset methods baseQs args.orderBy) := by
  obtain ⟨orderArg, filterArg⟩ := args
  cases orderArg <;> rfl

mutual

theorem flattenTree_eq_leafPaths (p : String) (t : TreeInput) :
    flattenTree p t = (leafPaths t).map (fun pv => (joinPath p pv.1, pv.2)) := by
  cases t with
  | leaf v => simp [flattenTree, leafPaths, joinPath]
  | node es => simpa [flattenTree, leafPaths] using flattenEntries_eq_leafPaths p es

theorem flattenEntries_eq_leafPaths (p : String) (es : List (String × TreeInput)) :
    flattenEntries p es = (leafPathsEntries es).map (fun pv => (joinPath p pv.1, pv.2)) := by
  cases es with
  | nil => simp [flattenEntries, leafPathsEntries]
  | cons e rest =>
    obtain ⟨k, t⟩ := e
    simp [flattenEntries, leafPathsEntries, flattenTree_eq_leafPaths (qualifyKey p k) t,
      flattenEntries_eq_leafPaths p rest, joinPath, List.map_map, Function.comp]

end

/-- Claim C1: for every submitted filter input tree, `resolve_queryset`
passes it through `tree_input_type_to_data` (substituting an empty tree when
absent) and the resulting dictionary is the data given to the filterset
whose outcome it returns; and `tree_input_type_to_data` flattens the tree
into a single flat lookup dictionary whose keys are the relation paths of
the leaves, joined by the lookup separator. -/
theorem resolveQueryset_flattens_filter_tree (filterset_class : FiltersetClass)
    (methods : String → Bool) (baseQs : QuerySet) (args : Args) :
    resolveQueryset filterset_class methods baseQs args =
        applyFilterset filterset_class
          (tree_input_type_to_data filterset_class (args.filter.getD (TreeInput.node [])))
          (orderedQueryset methods baseQs args.orderBy)
      ∧ ∀ t : TreeInput,
          tree_input_type_to_data filterset_class t =
            (leafPaths t).map (fun pv => (joinPath "" pv.1, pv.2)) := by
  constructor
  · exact resolveQueryset_eq_pipeline filterset_class methods baseQs args
  · intro t
    simpa [tree_input_type_to_data] using flattenTree_eq_leafPaths "" t

/-- Claim C2: `resolve_queryset` returns the filtered queryset exactly when
the filterset's form validates the flattened filter data, and otherwise
raises a single `ValidationError` whose message is the JSON encoding of the
form's errors; it succeeds if and only if the form is valid. -/
theorem resolveQueryset_validation_dichotomy (filterset_class : FiltersetClass)
    (methods : String → Bool) (baseQs : QuerySet) (args : Args) :
    resolveQueryset filterset_class methods baseQs args =
        (if filterset_class.formIsValid (filterDataOf filterset_class args) then
          Except.ok (filterset_class.filtersetQs (filterDataOf filterset_class args)
            (orderedQueryset methods baseQs args.orderBy))
        else
          Except.error (ValidationError.mk
            (filterset_class.formErrorsAsJson (filterDataOf filterset_class args))))
      ∧ ((∃ q, resolveQueryset filterset_class methods baseQs args = Except.ok q) ↔
          filterset_class.formIsValid (filterDataOf filterset_class args) = true)
      ∧ ((∃ e, resolveQueryset filterset_class methods baseQs args = Except.error e) ↔
          filterset_class.formIsValid (filterDataOf filterset_class args) = false) := by
  have hpipe := resolveQueryset_eq_pipeline filterset_class methods baseQs args
  rw [hpipe, applyFilterset]
  cases hv : filterset_class.formIsValid (filterDataOf filterset_class args) <;> simp [hv]

/-- Claim C3: when `orderBy` is a non-empty list, every name is converted by
`to_snake_case` and the filterset is constructed over the queryset obtained
by applying `order_by` with exactly those converted names in sequence
followed by `distinct()`, and the resulting ordering is the converted names
in the given sequence with a leading dash meaning descending order. -/
theorem resolveQueryset_list_order (filterset_class : FiltersetClass)
    (methods : String → Bool) (baseQs : QuerySet) (l : List String)
    (filterArg : Option TreeInput) (hne : l ≠ []) :
    resolveQueryset filterset_class methods baseQs
        { orderBy := OrderArg.list l, filter := filterArg } =
        applyFilterset filterset_class
          (tree_input_type_to_data filterset_class (filterArg.getD (TreeInput.node [])))
          (QuerySet.distinct (QuerySet.orderBy
            (applyAnnots methods baseQs (l.map to_snake_case)) (l.map to_snake_case)))
      ∧ orderingOf (QuerySet.distinct (QuerySet.orderBy
            (applyAnnots methods baseQs (l.map to_snake_case)) (l.map to_snake_case))) =
          some (l.map (fun o => interpretOrderField (to_snake_case o))) := by
  obtain ⟨a, as, rfl⟩ := List.exists_cons_of_ne_nil hne
  constructor
  · rw [resolveQueryset_eq_pipeline]
    rfl
  · simp [orderingOf, List.map_map, Function.comp]

/-- Witness for claim C3 at a concrete non-empty list. -/
theorem resolveQueryset_list_order_witness :
    (["-createdAt", "name"] : List String) ≠ [] ∧
      (resolveQueryset passthroughFiltersetClass noMethods sampleBaseQs
          { orderBy := OrderArg.list ["-createdAt", "name"], filter := none } =
          applyFilterset passthroughFiltersetClass
            (tree_input_type_to_data passthroughFiltersetClass
              ((none : Option TreeInput).getD (TreeInput.node [])))
            (QuerySet.distinct (QuerySet.orderBy
              (applyAnnots noMethods sampleBaseQs (["-createdAt", "name"].map to_snake_case))
              (["-createdAt", "name"].map to_snake_case)))
        ∧ orderingOf (QuerySet.distinct (QuerySet.orderBy
              (applyAnnots noMethods sampleBaseQs (["-createdAt", "name"].map to_snake_case))
              (["-createdAt", "name"].map to_snake_case))) =
            some (["-createdAt", "name"].map (fun o => interpretOrderField (to_snake_case o)))) :=
  ⟨by decide,
    resolveQueryset_list_order passthroughFiltersetClass noMethods sampleBaseQs
      ["-createdAt", "name"] none (by decide)⟩

/-- Claim C4 (refuted by evaluation): when `orderBy` is the single string
"createdAt", the source keeps `snake_order` a string, so unpacking it into
`order_by` spreads it into its characters; the resolver orders by the
ten one-character field names of "created_at" rather than by the one field
`created_at`. -/
theorem resolveQueryset_string_order_spreads_characters :
    resolveQueryset passthroughFiltersetClass noMethods sampleBaseQs
        { orderBy := OrderArg.str "createdAt", filter := none } =
      Except.ok (QuerySet.filtered
        (QuerySet.distinct (QuerySet.orderBy sampleBaseQs
          ["c", "r", "e", "a", "t", "e", "d", "_", "a", "t"])) [])
    ∧ orderingOf (QuerySet.distinct (QuerySet.orderBy sampleBaseQs
          ["c", "r", "e", "a", "t", "e", "d", "_", "a", "t"])) ≠
        some [("created_at", SortDir.asc)] := by
  constructor
  · rfl
  · decide

/-- Claim C5: the state-passing embedding of `resolve_queryset` leaves the
field state unchanged, computes the same answer as the pure embedding, and a
second resolution with the same arguments observes no effect of the
first. -/
theorem resolveQueryset_stateless (st : FieldState) (filterset_class : FiltersetClass)
    (methods : String → Bool) (baseQs : QuerySet) (args : Args) :
    (resolveQuerysetSt st filterset_class methods baseQs args).1 = st
    ∧ (resolveQuerysetSt st filterset_class methods baseQs args).2 =
        resolveQueryset filterset_class methods baseQs args
    ∧ resolveQuerysetSt ((resolveQuerysetSt st filterset_class methods baseQs args).1)
        filterset_class methods baseQs args =
        resolveQuerysetSt st filterset_class methods baseQs args := by
  have hframe : (resolveQuerysetSt st filterset_class methods baseQs args).1 = st := by
    cases hv : filterset_class.formIsValid
        (tree_input_type_to_data filterset_class (args.filter.getD (TreeInput.node []))) <;>
      simp [resolveQuerysetSt, hv]
  refine ⟨hframe, ?_, by rw [hframe]⟩
  rw [resolveQueryset_eq_pipeline]
  cases hv : filterset_class.formIsValid
      (tree_input_type_to_data filterset_class (args.filter.getD (TreeInput.node []))) <;>
    simp [resolveQuerysetSt, applyFilterset, filterDataOf, hv]

/-- Claim C6: constructing the field fails the assertion exactly when the
provided filterset class (the explicit argument, or failing that the node
type's Meta class) exists and is not an `AdvancedFilterSet` subclass; when
construction succeeds, the constructed field's provided filterset class is
absent or an `AdvancedFilterSet` subclass. -/
theorem initConnField_assertion (nodeType : NodeType) (filtersetClassArg : Option FiltersetCls)
    (filterInputTypePrefixArg : Option String) :
    (exceptIsOk (initConnField nodeType filtersetClassArg filterInputTypePrefixArg) =
        assertionPasses (providedFiltersetClassOf filtersetClassArg nodeType))
      ∧ (initConnField nodeType filtersetClassArg filterInputTypePrefixArg =
            Except.ok ⟨nodeType, filtersetClassArg, filterInputTypePrefixArg⟩
          ∨ initConnField nodeType filtersetClassArg filterInputTypePrefixArg =
            Except.error advancedAssertMsg)
      ∧ ∀ f : ConnField,
          initConnField nodeType filtersetClassArg filterInputTypePrefixArg = Except.ok f →
            assertionPasses (providedFiltersetClassOf f.providedArg f.nodeType) = true := by
  cases hc : providedFiltersetClassOf filtersetClassArg nodeType with
  | none =>
    refine ⟨by simp [initConnField, hc, exceptIsOk, assertionPasses],
      Or.inl (by simp [initConnField, hc]), ?_⟩
    intro f hf
    simp [initConnField, hc] at hf
    subst hf
    simp [assertionPasses, hc]
  | some c =>
    cases hca : c.isAdvancedFilterSetSubclass with
    | true =>
      refine ⟨by simp [initConnField, hc, hca, exceptIsOk, assertionPasses],
        Or.inl (by simp [initConnField, hc, hca]), ?_⟩
      intro f hf
      simp [initConnField, hc, hca] at hf
      subst hf
      simp [assertionPasses, hc, hca]
    | false =>
      refine ⟨by simp [initConnField, hc, hca, exceptIsOk, assertionPasses],
        Or.inr (by simp [initConnField, hc, hca]), ?_⟩
      intro f hf
      simp [initConnField, hc, hca] at hf

/-- Witness for claim C6 at a concrete successful construction. -/
theorem initConnField_assertion_witness :
    initConnField ⟨"TaskType", ⟨none⟩⟩ (some ⟨"TaskFilter", true⟩) none =
        Except.ok ⟨⟨"TaskType", ⟨none⟩⟩, some ⟨"TaskFilter", true⟩, none⟩
      ∧ assertionPasses (providedFiltersetClassOf
          (ConnField.mk ⟨"TaskType", ⟨none⟩⟩ (some ⟨"TaskFilter", true⟩) none).providedArg
          (ConnField.mk ⟨"TaskType", ⟨none⟩⟩ (some ⟨"TaskFilter", true⟩) none).nodeType) = true :=
  ⟨rfl,
    (initConnField_assertion ⟨"TaskType", ⟨none⟩⟩ (some ⟨"TaskFilter", true⟩) none).2.2
      ⟨⟨"TaskType", ⟨none⟩⟩, some ⟨"TaskFilter", true⟩, none⟩ rfl⟩

/-- Counterexample to claim C7 as stated: a field constructed with the
explicitly supplied prefix argument equal to the empty string does not get
that supplied prefix back; the empty string is falsy, so the property falls
through to the computed name. -/
theorem filterInputTypePrefix_empty_string_ignored :
    (ConnField.mk ⟨"TaskType", ⟨none⟩⟩ none (some "")).filterInputTypePrefixArg = some ""
      ∧ filterInputTypePrefixOf (ConnField.mk ⟨"TaskType", ⟨none⟩⟩ none (some "")) ≠ ""
      ∧ filterInputTypePrefixOf (ConnField.mk ⟨"TaskType", ⟨none⟩⟩ none (some "")) = "Task" := by
  refine ⟨rfl, ?_, rfl⟩
  decide

/-- Claim C7 as amended: the explicitly supplied prefix is returned unchanged
when a non-empty one was given; otherwise the property returns the node
type's class name with every occurrence of the substring `Type` removed,
concatenated with the provided filterset class's name when a provided
filterset class exists. -/
theorem filterInputTypePrefix_amended (f : ConnField) (p : String) :
    (f.filterInputTypePrefixArg = some p → p ≠ "" → filterInputTypePrefixOf f = p)
      ∧ (truthyOptStr f.filterInputTypePrefixArg = false →
          filterInputTypePrefixOf f =
            (match providedFiltersetClassOf f.providedArg f.nodeType with
              | some c => replaceTypeEmpty f.nodeType.name ++ c.name
              | none => replaceTypeEmpty f.nodeType.name)) := by
  constructor
  · intro hp hne
    have hpe : p.isEmpty = false := by
      cases hpe2 : p.isEmpty with
      | true => exact absurd ((String.isEmpty_iff p).mp hpe2) hne
      | false => rfl
    have htr : truthyOptStr f.filterInputTypePrefixArg = true := by
      rw [hp]
      simp [truthyOptStr, hpe]
    rw [filterInputTypePrefixOf, htr]
    simp [hp]
  · intro hfal
    rw [filterInputTypePrefixOf, hfal]
    cases hc : providedFiltersetClassOf f.providedArg f.nodeType <;> simp [hc]

/-- Witness for amended claim C7: a non-empty supplied prefix is returned
unchanged, and with no supplied prefix the node type name `TypeUserType`
loses both occurrences of `Type` before the filterset class name is
appended. -/
theorem filterInputTypePrefix_amended_witness :
    ((ConnField.mk ⟨"TaskType", ⟨none⟩⟩ none (some "CustomName")).filterInputTypePrefixArg =
          some "CustomName"
        ∧ ("CustomName" : String) ≠ ""
        ∧ filterInputTypePrefixOf (ConnField.mk ⟨"TaskType", ⟨none⟩⟩ none (some "CustomName")) =
            "CustomName")
      ∧ (truthyOptStr (ConnField.mk ⟨"TypeUserType", ⟨none⟩⟩ (some ⟨"UserFilter", true⟩)
            none).filterInputTypePrefixArg = false
        ∧ filterInputTypePrefixOf
            (ConnField.mk ⟨"TypeUserType", ⟨none⟩⟩ (some ⟨"UserFilter", true⟩) none) =
            "UserUserFilter") :=
  ⟨⟨rfl, by decide,
      (filterInputTypePrefix_amended (ConnField.mk ⟨"TaskType", ⟨none⟩⟩ none (some "CustomName"))
        "CustomName").1 rfl (by decide)⟩,
    ⟨rfl, by
      have h := (filterInputTypePrefix_amended
        (ConnField.mk ⟨"TypeUserType", ⟨none⟩⟩ (some ⟨"UserFilter", true⟩) none) "").2 rfl
      exact h.trans (by decide)⟩⟩

/-- Claim C8: when the request omits the filter argument, `resolve_queryset`
substitutes an empty dictionary, so the filterset receives the flattening of
an empty tree (the empty flat dictionary) and the request resolves without a
missing-filter error whenever the empty form validates. -/
theorem resolveQueryset_missing_filter (filterset_class : FiltersetClass)
    (methods : String → Bool) (baseQs : QuerySet) (ord : OrderArg) :
    filterDataOf filterset_class { orderBy := ord, filter := none } = []
      ∧ tree_input_type_to_data filterset_class (TreeInput.node []) = []
      ∧ resolveQueryset filterset_class methods baseQs { orderBy := ord, filter := none } =
          (if filterset_class.formIsValid [] then
            Except.ok (filterset_class.filtersetQs [] (orderedQueryset methods baseQs ord))
          else
            Except.error (ValidationError.mk (filterset_class.formErrorsAsJson []))) := by
  refine ⟨rfl, rfl, ?_⟩
  rw [resolveQueryset_eq_pipeline]
  rfl

end GrapheneDjangoFilter
